import Mathlib

/-!
Verification of the upquack uptime monitor (Rust sources under src/).

The development shallowly embeds the data model and the operations of the
monitor:

* `src/ui/domains.rs` — `MonitoredDomain`, `CheckStatus`, `DomainStatus`,
  `HttpCode`, `DomainScreen` together with its key handling
  (`handle_key_event`, `delete_entry`, `next_row`, `previous_row`) and the
  persistence callback built in `DomainScreen::init`;
* `src/monitor.rs` — the checker loop body of `start_monitoring_task`
  (probe classification, history append and trim, persistence callback
  invocation);
* `src/utils.rs` — `is_valid_url`;
* `src/app.rs` — `App::handle_input_events` / `App::handle_global_key_event`.

Machine integers (`u16`, `u64`, `usize`) are modelled as `Nat`; the values
involved (status codes, lengths, indices, milliseconds) never approach the
respective bounds in the modelled paths, except where an `usize` subtraction
can underflow.  A Rust `usize` underflow aborts the thread (an arithmetic
overflow panic), and the embedding makes such aborts explicit by returning
`none` from the affected operation.  `Uuid` values are modelled as `Nat`:
the only operations the program performs on them are generation and
equality tests.  `DateTime<Utc>` timestamps are modelled as `Int`
(milliseconds); the program only stores and formats them.
-/

namespace Upquack

/-- Rust `DomainStatus` from src/ui/domains.rs. -/
inductive DomainStatus where
  | Up : DomainStatus
  | Down : DomainStatus
  | Unknown : DomainStatus
  | Error : String → DomainStatus
deriving DecidableEq, Repr

/-- Rust `HttpCode` from src/ui/domains.rs.  `Ok` is the "200" bucket and `Err`
the "500" bucket (their `repr(u16)` values in the source). -/
inductive HttpCode where
  | Ok : HttpCode
  | Err : HttpCode
  | Other : Nat → HttpCode
  | Timeout : HttpCode
  | NetworkError : HttpCode
deriving DecidableEq, Repr

/-- Rust `CheckStatus` from src/ui/domains.rs: the outcome record of one probe. -/
structure CheckStatus where
  timestamp : Int
  status : DomainStatus
  http_code : Option HttpCode
  response_time_ms : Option Nat
  error_message : Option String
deriving DecidableEq, Repr

/-- Rust `MonitoredDomain` from src/ui/domains.rs. -/
structure MonitoredDomain where
  id : Nat
  url : String
  interval_seconds : Nat
  check_history : List CheckStatus
deriving DecidableEq, Repr

/-- Model of `reqwest::StatusCode::is_success` (the 2xx range). -/
def isSuccess (code : Nat) : Bool :=
  decide (200 ≤ code ∧ code ≤ 299)

/-- Model of `http::StatusCode::is_server_error` (the 5xx range). -/
def isServerError (code : Nat) : Bool :=
  decide (500 ≤ code ∧ code ≤ 599)

/-- Rust `HttpCode::from_status_code` from src/ui/domains.rs: only the exact
status `StatusCode::OK` (200) maps to `Ok`; a server error maps to `Err`;
everything else keeps its numeric code in `Other`. -/
def HttpCode.from_status_code (code : Nat) : HttpCode :=
  if code = 200 then HttpCode.Ok
  else if isServerError code then HttpCode.Err
  else HttpCode.Other code

/-- Outcome of `domain_head_request` in src/monitor.rs:
`Result<StatusCode, reqwest::Error>`.  A `reqwest::Error` is abstracted to
its display message together with the result of `Error::is_timeout`. -/
inductive ProbeOutcome where
  | ok : Nat → ProbeOutcome
  | err : String → Bool → ProbeOutcome
deriving DecidableEq, Repr

/-- The `CheckStatus` built by the checker loop in
`start_monitoring_task` (src/monitor.rs lines 54–85) from the probe
outcome, the completion timestamp `end_time` and the elapsed
`response_time` in milliseconds. -/
def buildCheckStatus (outcome : ProbeOutcome) (end_time : Int)
    (response_time : Nat) : CheckStatus :=
  match outcome with
  | ProbeOutcome.ok status_code =>
      { timestamp := end_time
        status := if isSuccess status_code then DomainStatus.Up else DomainStatus.Down
        http_code := some (HttpCode.from_status_code status_code)
        response_time_ms := some response_time
        error_message := none }
  | ProbeOutcome.err msg is_timeout =>
      { timestamp := end_time
        status := DomainStatus.Error msg
        http_code := if is_timeout then some HttpCode.Timeout else some HttpCode.NetworkError
        response_time_ms := none
        error_message := some msg }

/-- The history update of src/monitor.rs lines 93–97: push the new result,
then `drain(0..len - 100)` whenever the length exceeds 100. -/
def appendCheck (history : List CheckStatus) (result : CheckStatus) :
    List CheckStatus :=
  let h := history ++ [result]
  if 100 < h.length then h.drop (h.length - 100) else h

/-- The in-place mutation performed through
`domains_guard.iter_mut().find(|d| d.id == updated_domain.id)` followed by
`d.check_history = ...` (src/ui/domains.rs lines 100–101): replace the
check history of the first domain carrying the given id. -/
def setHistoryFirst : List MonitoredDomain → Nat → List CheckStatus →
    List MonitoredDomain
  | [], _, _ => []
  | d :: ds, did, hist =>
      if d.id = did then { d with check_history := hist } :: ds
      else d :: setHistoryFirst ds did hist

/-- The persistence callback built in `DomainScreen::init`
(src/ui/domains.rs lines 95–111): locate the updated domain in the shared
registry, overwrite its check history, then save the whole registry.  A
save failure (`persistFails`) is propagated as an error — but only after
the in-memory history has already been overwritten, so it never rolls the
registry update back.  When the id is absent nothing is written and the
callback succeeds. -/
def update_domains_callback (reg : List MonitoredDomain) (updated_id : Nat)
    (check_history : List CheckStatus) (persistFails : Bool) :
    List MonitoredDomain × Except Unit Unit :=
  match reg.find? (fun d => d.id == updated_id) with
  | some _ =>
      let reg' := setHistoryFirst reg updated_id check_history
      if persistFails then (reg', Except.error ()) else (reg', Except.ok ())
  | none => (reg, Except.ok ())

/-- One iteration of the checker loop in `start_monitoring_task`
(src/monitor.rs lines 48–106), restricted to its effect on the shared
registry.  The loop clones the registry, locates its target by id, pushes
the freshly built `CheckStatus`, trims the history to the last 100 entries
and hands the result to the persistence callback, which writes it back
into the shared registry.  A callback error is only logged
(`log::error!`), after which the loop sleeps and repeats; the function is
total — no outcome aborts the loop. -/
def checkerIteration (reg : List MonitoredDomain) (domain_id : Nat)
    (outcome : ProbeOutcome) (end_time : Int) (response_time : Nat)
    (persistFails : Bool) : List MonitoredDomain :=
  let head_status := buildCheckStatus outcome end_time response_time
  let domains_clone := reg
  match domains_clone.find? (fun d => d.id == domain_id) with
  | some d =>
      let new_history := appendCheck d.check_history head_status
      (update_domains_callback reg domain_id new_history persistFails).1
  | none => reg

/-- One probe completion event, as consumed by `checkerIteration`. -/
structure CheckEvent where
  domain_id : Nat
  outcome : ProbeOutcome
  end_time : Int
  response_time : Nat
  persistFails : Bool
deriving DecidableEq, Repr

/-- The registry after a sequence of probe completion events has been
folded through the checker loop. -/
def runChecker (reg : List MonitoredDomain) (evs : List CheckEvent) :
    List MonitoredDomain :=
  evs.foldl
    (fun r e =>
      checkerIteration r e.domain_id e.outcome e.end_time e.response_time
        e.persistFails)
    reg

/-- The `CheckStatus` values a given target receives from an event
sequence, in completion order. -/
def resultsFor (did : Nat) (evs : List CheckEvent) : List CheckStatus :=
  (evs.filter (fun e => e.domain_id == did)).map
    (fun e => buildCheckStatus e.outcome e.end_time e.response_time)

/-! ### URL validation (src/utils.rs)

`is_valid_url` delegates parsing to the external `url` crate
(`Url::parse`, WHATWG URL standard).  The crate is modelled below,
restricted to the behaviour the validator observes: scheme extraction and
validation, authority/host extraction for the schemes involved, and the
standard's rule that a host whose last label is numeric must be a valid
IPv4 address (each dotted part at most 255), otherwise parsing fails.
Percent-encoding, punycode and IPv6 literals are outside the modelled
inputs. -/

/-- Model of `url::Url`, restricted to the accessors `is_valid_url`
uses: `scheme()` and `host_str()`/`host()` (the latter is `some` exactly
when the former is). -/
structure Url where
  scheme : String
  host : Option String
deriving DecidableEq, Repr

/-- Split a character list at the first occurrence of `c`; `none` when `c`
does not occur. -/
def splitFirst (cs : List Char) (c : Char) : Option (List Char × List Char) :=
  match cs with
  | [] => none
  | x :: xs =>
      if x = c then some ([], xs)
      else
        match splitFirst xs c with
        | some (a, b) => some (x :: a, b)
        | none => none

/-- Split a character list at every occurrence of `c` (the list of groups
is never empty, mirroring `str::split`). -/
def splitOnChar (c : Char) : List Char → List (List Char)
  | [] => [[]]
  | x :: xs =>
      match splitOnChar c xs with
      | [] => [[]]
      | g :: gs => if x = c then [] :: g :: gs else (x :: g) :: gs

/-- Numeric value of a digit list (used for the IPv4 bound check). -/
def digitsVal (cs : List Char) : Nat :=
  cs.foldl (fun n c => n * 10 + (c.toNat - 48)) 0

/-- Model of Rust `str::ends_with` for the ASCII strings involved: the
pattern is a character-suffix of the string. -/
def strEndsWith (s t : String) : Bool :=
  t.data.isSuffixOf s.data

/-- A scheme is a nonempty ASCII-alpha-led run of alphanumerics, `+`, `-`
or `.` (RFC 3986 / WHATWG). -/
def schemeValid : List Char → Bool
  | [] => false
  | c :: cs =>
      c.isAlpha &&
        (c :: cs).all (fun x => x.isAlpha || x.isDigit || x = '+' || x = '-' || x = '.')

/-- The WHATWG special schemes relevant here (besides `file`). -/
def specialSchemes : List String := ["http", "https", "ws", "wss", "ftp"]

/-- Host parsing of the `url` crate on an authority string: strip the
userinfo (everything up to the last `@`) and the port (everything from the
first following `:`), lowercase, and apply the standard's ends-in-a-number
rule: if the last dot-separated label is numeric the host must be a valid
IPv4 address — at most four labels, all numeric, each at most 255 —
otherwise parsing fails.  An empty host is a parse failure (all modelled
schemes with an authority require a host). -/
def parseHost (authority : List Char) : Option (List Char) :=
  let afterUser := (splitOnChar '@' authority).getLastD []
  let hostStr := (splitOnChar ':' afterUser).headD []
  if hostStr.isEmpty then none
  else
    let h := hostStr.map Char.toLower
    let labels := splitOnChar '.' h
    match labels.getLast? with
    | some lastLabel =>
        if lastLabel.length > 0 && lastLabel.all Char.isDigit then
          if labels.length ≤ 4 &&
              labels.all
                (fun l => l.length > 0 && l.all Char.isDigit &&
                  digitsVal l ≤ 255) then
            some h
          else none
        else some h
    | none => none

/-- Model of `url::Url::parse` on the inputs the validator concerns:
extract and validate the scheme; for a special scheme, parse the authority
(after any run of slashes) into a host; for a non-special scheme a host
exists only behind an explicit `//`.  A string without a `:` is a relative
URL and fails (no base URL is supplied). -/
def parseUrl (s : String) : Option Url :=
  match splitFirst s.toList ':' with
  | none => none
  | some (schemeCs, rest) =>
      if schemeValid schemeCs then
        let scheme := String.mk (schemeCs.map Char.toLower)
        if specialSchemes.contains scheme then
          let afterSlashes := rest.dropWhile (fun c => c = '/')
          let auth := afterSlashes.takeWhile
            (fun c => ¬ (c = '/' || c = '?' || c = '#'))
          match parseHost auth with
          | some h => some { scheme := scheme, host := some (String.mk h) }
          | none => none
        else
          if rest.take 2 = ['/', '/'] then
            let auth := (rest.drop 2).takeWhile
              (fun c => ¬ (c = '/' || c = '?' || c = '#'))
            match parseHost auth with
            | some h => some { scheme := scheme, host := some (String.mk h) }
            | none => none
          else some { scheme := scheme, host := none }
      else none

/-- The TLD allow-list hard-coded in `is_valid_url` (src/utils.rs lines
10–12), verbatim — note the last entry is `"bi"` without a leading dot. -/
def valid_tlds : List String :=
  [".com", ".org", ".net", ".io", ".co", ".gov", ".edu", ".dev", "bi"]

/-- Rust `is_valid_url` from src/utils.rs: the candidate must parse, have
scheme `http` or `https`, have a host, and the host must end with one of
the allow-listed TLD strings. -/
def is_valid_url (url_str : String) : Bool :=
  match parseUrl url_str with
  | some url =>
      let is_http_scheme := url.scheme == "http" || url.scheme == "https"
      let has_host := url.host.isSome
      let has_valid_tld :=
        match url.host with
        | some host => valid_tlds.any (fun tld => strEndsWith host tld)
        | none => false
      is_http_scheme && has_host && has_valid_tld
  | none => false

/-! ### Session state machine (src/ui/domains.rs, src/app.rs)

The terminal widgets are external collaborators.  `tui_textarea::TextArea`
is modelled as the text around a cursor (`before`/`after`); the handled
keys only ever produce a single line, so one line suffices.
`ratatui::widgets::TableState` is modelled by its `selected()` index.  The
contents of the persisted file `db/domains.json` are carried as an extra
field `db_file` so that saves are observable; a failing save
(`persistFails`) leaves the file unchanged and is merely logged by the
callers modelled here.  Key modifiers are not modelled: events stand for
plain key presses. -/

/-- Model of the external `tui_textarea::TextArea`: the edited line, split
at the cursor. -/
structure TextAreaModel where
  before : String
  after : String
deriving DecidableEq, Repr

/-- Rust `Popup` from src/ui/popup.rs: a title line and a text area (styling
omitted). -/
structure Popup where
  title : String
  textarea : TextAreaModel
deriving DecidableEq, Repr

/-- Rust `Popup::new` (src/ui/popup.rs lines 49–71): the initial content is
inserted into a fresh text area, leaving the cursor at the end. -/
def Popup.new (title : String) (initial_content : Option String) : Popup :=
  { title := title, textarea := { before := initial_content.getD "", after := "" } }

/-- Value of `Popup::get_input_text().join("\n")` for the single-line model. -/
def Popup.input_text (p : Popup) : String :=
  p.textarea.before ++ p.textarea.after

/-- Rust `DomainScreenMode` from src/ui/domains.rs. -/
inductive DomainScreenMode where
  | DomainTable : DomainScreenMode
  | AddDomain : Popup → DomainScreenMode
  | HistoryTable : DomainScreenMode
deriving DecidableEq, Repr

/-- Rust `DomainScreen` from src/ui/domains.rs.  `selected` is
`domain_table_state.table_state.selected()`, `history_selected` is
`history_table_state.table_state.selected()`, `domains` is the shared
registry behind the mutex, and `db_file` the persisted contents of
`db/domains.json`. -/
structure DomainScreen where
  selected : Option Nat
  history_selected : Option Nat
  domains : List MonitoredDomain
  mode : DomainScreenMode
  db_file : List MonitoredDomain
deriving DecidableEq, Repr

/-- The key codes routed by the program (`crossterm::event::KeyCode`);
`otherKey` stands for every unhandled code. -/
inductive KeyCode where
  | char : Char → KeyCode
  | esc : KeyCode
  | enter : KeyCode
  | backspace : KeyCode
  | delete : KeyCode
  | left : KeyCode
  | right : KeyCode
  | tab : KeyCode
  | up : KeyCode
  | down : KeyCode
  | otherKey : KeyCode
deriving DecidableEq, Repr

/-- Rust `DomainScreen::delete_entry` (src/ui/domains.rs lines 136–161).  The
source clones the registry out of the mutex guard
(`self.domains.lock().unwrap().clone()`), removes the selected entry from
the clone, adjusts the selection against the clone, and saves the clone —
the shared registry itself is never written back. -/
def DomainScreen.delete_entry (screen : DomainScreen) (persistFails : Bool) :
    DomainScreen :=
  let domain_guard := screen.domains
  match screen.selected with
  | some selected_index =>
      match domain_guard.get? selected_index with
      | some entry =>
          let entry_id := entry.id
          let retained := domain_guard.filter (fun d => d.id != entry_id)
          let selected' :=
            if retained.isEmpty then none
            else if retained.length ≤ selected_index then
              some (retained.length - 1)
            else some selected_index
          { screen with
              selected := selected'
              db_file := if persistFails then screen.db_file else retained }
      | none => screen
  | none => screen

/-- Rust `DomainScreen::next_row` (src/ui/domains.rs lines 163–178).  With a
selection on an empty table the source evaluates `domain_guard.len() - 1`
on `usize`, which underflows and aborts — modelled as `none`.  With no
selection it selects row 0, even on an empty table. -/
def DomainScreen.next_row (screen : DomainScreen) : Option DomainScreen :=
  let len := screen.domains.length
  match screen.selected with
  | some i =>
      if len = 0 then none
      else some { screen with selected := some (if len - 1 ≤ i then 0 else i + 1) }
  | none => some { screen with selected := some 0 }

/-- Rust `DomainScreen::previous_row` (src/ui/domains.rs lines 180–194); the
underflow case mirrors `next_row`. -/
def DomainScreen.previous_row (screen : DomainScreen) : Option DomainScreen :=
  let len := screen.domains.length
  match screen.selected with
  | some i =>
      if i = 0 then
        if len = 0 then none
        else some { screen with selected := some (len - 1) }
      else some { screen with selected := some (i - 1) }
  | none => some { screen with selected := some 0 }

/-- Character insertion of `TextArea::input` with `Key::Char`. -/
def TextAreaModel.insertChar (ta : TextAreaModel) (c : Char) : TextAreaModel :=
  { ta with before := ta.before.push c }

/-- The remaining `TextArea::input` editing keys forwarded by the modal
(src/ui/domains.rs lines 230–271): backspace, delete, cursor left/right
and tab (the external widget inserts its soft-tab of four spaces). -/
def TextAreaModel.applyKey (ta : TextAreaModel) (code : KeyCode) :
    TextAreaModel :=
  match code with
  | KeyCode.char c => ta.insertChar c
  | KeyCode.backspace => { ta with before := ta.before.dropRight 1 }
  | KeyCode.delete => { ta with after := ta.after.drop 1 }
  | KeyCode.left =>
      { before := ta.before.dropRight 1
        after := ta.before.takeRight 1 ++ ta.after }
  | KeyCode.right =>
      { before := ta.before ++ ta.after.take 1
        after := ta.after.drop 1 }
  | KeyCode.tab => { ta with before := ta.before ++ "    " }
  | _ => ta

/-- The validation-error title set on an invalid submission
(src/ui/domains.rs line 208). -/
def invalidUrlTitle : String := "Invalid URL! (e.g., http://example.com)"

/-- Modelled from the spec: the module `crate::ui::history_table` used by
src/ui/domains.rs is not present under src/; per §4.6/§8 of the spec its
row navigation wraps circularly and an empty collection yields no
selection (matching the in-repo analogue in src/ui/history_screen.rs). -/
def historyTableNext (sel : Option Nat) (len : Nat) : Option Nat :=
  if len = 0 then none
  else
    match sel with
    | some i => some (if len - 1 ≤ i then 0 else i + 1)
    | none => some 0

/-- Modelled from the spec: see `historyTableNext`. -/
def historyTablePrev (sel : Option Nat) (len : Nat) : Option Nat :=
  if len = 0 then none
  else
    match sel with
    | some i => some (if i = 0 then len - 1 else i - 1)
    | none => some 0

/-- Rust `DomainScreen::handle_key_event` (src/ui/domains.rs lines 196–337).
Returns the updated screen and the `bool` consumption flag, or `none`
where the source aborts: the row-navigation underflows, and the
out-of-bounds indexing `domains_guard[selected_domain]` performed in
history mode before the key is even inspected.  `fid` models the
`Uuid::new_v4()` drawn for a submitted domain; `pf` a failing
`save_domains`. -/
def DomainScreen.handle_key_event (screen : DomainScreen) (code : KeyCode)
    (fid : Nat) (pf : Bool) : Option (DomainScreen × Bool) :=
  match screen.mode with
  | DomainScreenMode.AddDomain popup =>
      match code with
      | KeyCode.esc =>
          some ({ screen with mode := DomainScreenMode.DomainTable }, true)
      | KeyCode.enter =>
          let input_url := popup.input_text
          if ¬ is_valid_url input_url then
            some ({ screen with
                      mode := DomainScreenMode.AddDomain
                        { popup with title := invalidUrlTitle } }, true)
          else
            let new_domain : MonitoredDomain :=
              { id := fid
                url := input_url.trim
                interval_seconds := 60
                check_history := [] }
            let domains' := screen.domains ++ [new_domain]
            some ({ screen with
                      domains := domains'
                      db_file := if pf then screen.db_file else domains'
                      mode := DomainScreenMode.DomainTable }, true)
      | KeyCode.char c =>
          some ({ screen with
                    mode := DomainScreenMode.AddDomain
                      { popup with textarea := popup.textarea.insertChar c } },
                true)
      | KeyCode.backspace =>
          some ({ screen with
                    mode := DomainScreenMode.AddDomain
                      { popup with
                          textarea := popup.textarea.applyKey KeyCode.backspace } },
                true)
      | KeyCode.delete =>
          some ({ screen with
                    mode := DomainScreenMode.AddDomain
                      { popup with
                          textarea := popup.textarea.applyKey KeyCode.delete } },
                true)
      | KeyCode.left =>
          some ({ screen with
                    mode := DomainScreenMode.AddDomain
                      { popup with
                          textarea := popup.textarea.applyKey KeyCode.left } },
                true)
      | KeyCode.right =>
          some ({ screen with
                    mode := DomainScreenMode.AddDomain
                      { popup with
                          textarea := popup.textarea.applyKey KeyCode.right } },
                true)
      | KeyCode.tab =>
          some ({ screen with
                    mode := DomainScreenMode.AddDomain
                      { popup with
                          textarea := popup.textarea.applyKey KeyCode.tab } },
                true)
      | _ => some (screen, false)
  | DomainScreenMode.DomainTable =>
      match code with
      | KeyCode.char 'A' =>
          some ({ screen with
                    mode := DomainScreenMode.AddDomain
                      (Popup.new "Add New Domain" (some "https://")) }, true)
      | KeyCode.char 'a' =>
          some ({ screen with
                    mode := DomainScreenMode.AddDomain
                      (Popup.new "Add New Domain" (some "https://")) }, true)
      | KeyCode.char 'D' => some (screen.delete_entry pf, true)
      | KeyCode.char 'd' => some (screen.delete_entry pf, true)
      | KeyCode.char 'H' =>
          some ({ screen with mode := DomainScreenMode.HistoryTable }, true)
      | KeyCode.char 'h' =>
          some ({ screen with mode := DomainScreenMode.HistoryTable }, true)
      | KeyCode.up => (screen.previous_row).map (fun s => (s, true))
      | KeyCode.char 'k' => (screen.previous_row).map (fun s => (s, true))
      | KeyCode.down => (screen.next_row).map (fun s => (s, true))
      | KeyCode.char 'j' => (screen.next_row).map (fun s => (s, true))
      | KeyCode.esc => some (screen, false)
      | _ => some (screen, false)
  | DomainScreenMode.HistoryTable =>
      match screen.selected with
      | some selected_domain =>
          match screen.domains.get? selected_domain with
          | none => none
          | some d =>
              let len := d.check_history.length
              match code with
              | KeyCode.esc =>
                  some ({ screen with mode := DomainScreenMode.DomainTable },
                        true)
              | KeyCode.up =>
                  some ({ screen with
                            history_selected :=
                              historyTablePrev screen.history_selected len },
                        true)
              | KeyCode.char 'k' =>
                  some ({ screen with
                            history_selected :=
                              historyTablePrev screen.history_selected len },
                        true)
              | KeyCode.down =>
                  some ({ screen with
                            history_selected :=
                              historyTableNext screen.history_selected len },
                        true)
              | KeyCode.char 'j' =>
                  some ({ screen with
                            history_selected :=
                              historyTableNext screen.history_selected len },
                        true)
              | _ => some (screen, false)
      | none => some (screen, false)

/-- Rust `Menu` from src/app.rs. -/
inductive Menu where
  | Main : Menu
  | Domains : DomainScreen → Menu
deriving DecidableEq, Repr

/-- Rust `App` from src/app.rs; `switchRequested` records a
`SwitchToDomainsScreen` event sent on the channel. -/
structure App where
  current_screen : Menu
  exit : Bool
  switchRequested : Bool
deriving DecidableEq, Repr

/-- Rust `App::handle_global_key_event` (src/app.rs lines 99–126). -/
def App.handle_global_key_event (app : App) (code : KeyCode) : App × Bool :=
  match code with
  | KeyCode.char 'q' => ({ app with exit := true }, true)
  | KeyCode.char 'Q' => ({ app with exit := true }, true)
  | KeyCode.esc =>
      match app.current_screen with
      | Menu.Domains _ => ({ app with current_screen := Menu.Main }, true)
      | Menu.Main => (app, false)
  | KeyCode.char 'e' =>
      match app.current_screen with
      | Menu.Domains _ => (app, false)
      | Menu.Main => ({ app with switchRequested := true }, true)
  | KeyCode.char 'E' =>
      match app.current_screen with
      | Menu.Domains _ => (app, false)
      | Menu.Main => ({ app with switchRequested := true }, true)
  | _ => (app, false)

/-- The key-press path of `App::handle_input_events` (src/app.rs lines
80–97): the active screen is offered the key first; an unconsumed key is
then offered to the global handler.  `none` propagates an abort from the
screen handler. -/
def App.handle_input_events (app : App) (code : KeyCode) (fid : Nat)
    (pf : Bool) : Option App :=
  match app.current_screen with
  | Menu.Main =>
      let res := app.handle_global_key_event code
      if res.2 then some res.1
      else some (res.1.handle_global_key_event code).1
  | Menu.Domains domain_screen =>
      match domain_screen.handle_key_event code fid pf with
      | none => none
      | some (screen', consumed) =>
          let app1 : App := { app with current_screen := Menu.Domains screen' }
          if consumed then some app1
          else some (app1.handle_global_key_event code).1

/-! ### History-trim lemmas -/

theorem appendCheck_eq_drop (h : List CheckStatus) (r : CheckStatus) :
    appendCheck h r = (h ++ [r]).drop ((h.length + 1) - 100) := by
  by_cases hc : 100 < h.length + 1
  · simp [appendCheck, hc]
  · have h0 : h.length + 1 - 100 = 0 := by omega
    simp [appendCheck, hc, h0]

theorem appendCheck_length_le (h : List CheckStatus) (r : CheckStatus)
    (hle : h.length ≤ 100) : (appendCheck h r).length ≤ 100 := by
  rw [appendCheck_eq_drop]
  simp [List.length_drop]
  omega

/-- Folding appends through the trim keeps exactly the suffix of the last
100 results. -/
theorem foldl_appendCheck (rs : List CheckStatus) :
    ∀ h : List CheckStatus, h.length ≤ 100 →
      rs.foldl appendCheck h = (h ++ rs).drop ((h.length + rs.length) - 100) := by
  induction rs with
  | nil =>
      intro h hle
      simp only [List.foldl_nil, List.append_nil, List.length_nil, Nat.add_zero]
      have h0 : h.length - 100 = 0 := Nat.sub_eq_zero_of_le hle
      rw [h0, List.drop_zero]
  | cons r rs ih =>
      intro h hle
      have hlen' : (appendCheck h r).length ≤ 100 := appendCheck_length_le h r hle
      have hfold : List.foldl appendCheck h (r :: rs) =
          List.foldl appendCheck (appendCheck h r) rs := rfl
      rw [hfold, ih _ hlen', appendCheck_eq_drop]
      have hklen : (h.length + 1) - 100 ≤ (h ++ [r]).length := by
        simp only [List.length_append, List.length_cons, List.length_nil]
        omega
      rw [← List.drop_append_of_le_length hklen, List.drop_drop]
      have hlist : (h ++ [r]) ++ rs = h ++ (r :: rs) := by simp
      rw [hlist]
      have harith : (h.length + 1 - 100) +
          ((List.drop (h.length + 1 - 100) (h ++ [r])).length + rs.length - 100) =
          h.length + (r :: rs).length - 100 := by
        simp only [List.length_drop, List.length_append, List.length_cons,
          List.length_nil]
        omega
      rw [harith]

/-! ### Registry-level lemmas -/

theorem find?_id_cons (x : MonitoredDomain) (xs : List MonitoredDomain)
    (did : Nat) :
    (x :: xs).find? (fun y => y.id == did) =
      if x.id = did then some x else xs.find? (fun y => y.id == did) := by
  by_cases hx : x.id = did
  · have hb : (x.id == did) = true := by simp [hx]
    simp [List.find?_cons, hb, hx]
  · have hb : (x.id == did) = false := by simp [hx]
    simp [List.find?_cons, hb, hx]

theorem find?_setHistoryFirst (reg : List MonitoredDomain) (did : Nat)
    (hist : List CheckStatus) (d : MonitoredDomain)
    (h : reg.find? (fun x => x.id == did) = some d) :
    (setHistoryFirst reg did hist).find? (fun x => x.id == did) =
      some { d with check_history := hist } := by
  induction reg with
  | nil => simp [List.find?] at h
  | cons x xs ih =>
      rw [find?_id_cons] at h
      by_cases hx : x.id = did
      · rw [if_pos hx] at h
        injection h with hd
        subst hd
        unfold setHistoryFirst
        rw [if_pos hx, find?_id_cons]
        simp [hx]
      · rw [if_neg hx] at h
        unfold setHistoryFirst
        rw [if_neg hx, find?_id_cons, if_neg hx]
        exact ih h

theorem find?_setHistoryFirst_ne (reg : List MonitoredDomain)
    (did did' : Nat) (hist : List CheckStatus) (hne : did' ≠ did) :
    (setHistoryFirst reg did' hist).find? (fun x => x.id == did) =
      reg.find? (fun x => x.id == did) := by
  induction reg with
  | nil => rfl
  | cons x xs ih =>
      unfold setHistoryFirst
      by_cases hx : x.id = did'
      · rw [if_pos hx, find?_id_cons, find?_id_cons]
        have hxne : ¬ (x.id = did) := by omega
        simp [hxne]
      · rw [if_neg hx, find?_id_cons, find?_id_cons]
        by_cases hxd : x.id = did
        · rw [if_pos hxd, if_pos hxd]
        · rw [if_neg hxd, if_neg hxd]
          exact ih

theorem update_domains_callback_fst (reg : List MonitoredDomain) (did : Nat)
    (hist : List CheckStatus) (pf : Bool) :
    (update_domains_callback reg did hist pf).1 =
      match reg.find? (fun d => d.id == did) with
      | some _ => setHistoryFirst reg did hist
      | none => reg := by
  unfold update_domains_callback
  cases hf : reg.find? (fun d => d.id == did) with
  | some d => cases pf <;> rfl
  | none => rfl

/-- The registry written by one checker iteration, in closed form. -/
theorem checkerIteration_eq (reg : List MonitoredDomain) (did : Nat)
    (outcome : ProbeOutcome) (ts : Int) (rt : Nat) (pf : Bool) :
    checkerIteration reg did outcome ts rt pf =
      match reg.find? (fun d => d.id == did) with
      | some d =>
          setHistoryFirst reg did
            (appendCheck d.check_history (buildCheckStatus outcome ts rt))
      | none => reg := by
  simp only [checkerIteration]
  cases hf : reg.find? (fun d => d.id == did) with
  | some d => simp only [update_domains_callback_fst, hf]
  | none => rfl

/-- Effect of one checker iteration on its own target. -/
theorem checkerIteration_find (reg : List MonitoredDomain) (did : Nat)
    (outcome : ProbeOutcome) (ts : Int) (rt : Nat) (pf : Bool)
    (d : MonitoredDomain)
    (h : reg.find? (fun x => x.id == did) = some d) :
    (checkerIteration reg did outcome ts rt pf).find?
        (fun x => x.id == did) =
      some { d with
              check_history :=
                appendCheck d.check_history (buildCheckStatus outcome ts rt) } := by
  rw [checkerIteration_eq, h]
  exact find?_setHistoryFirst reg did _ d h

/-- A checker iteration for a different target leaves this target's entry
untouched. -/
theorem checkerIteration_find_ne (reg : List MonitoredDomain)
    (did did' : Nat) (outcome : ProbeOutcome) (ts : Int) (rt : Nat)
    (pf : Bool) (hne : did' ≠ did) :
    (checkerIteration reg did' outcome ts rt pf).find?
        (fun x => x.id == did) =
      reg.find? (fun x => x.id == did) := by
  rw [checkerIteration_eq]
  cases hf : reg.find? (fun d => d.id == did') with
  | some d2 => exact find?_setHistoryFirst_ne reg did did' _ hne
  | none => rfl

/-- Running the checker folds exactly this target's results into its
history, in completion order. -/
theorem runChecker_find (evs : List CheckEvent) :
    ∀ (reg : List MonitoredDomain) (did : Nat) (d : MonitoredDomain),
      reg.find? (fun x => x.id == did) = some d →
      (runChecker reg evs).find? (fun x => x.id == did) =
        some { d with
                check_history :=
                  (resultsFor did evs).foldl appendCheck d.check_history } := by
  induction evs with
  | nil =>
      intro reg did d h
      simp [runChecker, resultsFor, h]
  | cons e evs ih =>
      intro reg did d h
      have hrun : runChecker reg (e :: evs) =
          runChecker
            (checkerIteration reg e.domain_id e.outcome e.end_time
              e.response_time e.persistFails) evs := rfl
      rw [hrun]
      by_cases hid : e.domain_id = did
      · subst hid
        have h1 := checkerIteration_find reg e.domain_id e.outcome e.end_time
          e.response_time e.persistFails d h
        have h2 := ih _ e.domain_id _ h1
        rw [h2]
        have hres : resultsFor e.domain_id (e :: evs) =
            buildCheckStatus e.outcome e.end_time e.response_time ::
              resultsFor e.domain_id evs := by
          simp [resultsFor, List.filter_cons]
        rw [hres]
        rfl
      · have h1 : (checkerIteration reg e.domain_id e.outcome e.end_time
            e.response_time e.persistFails).find? (fun x => x.id == did) =
            some d := by
          rw [checkerIteration_find_ne reg did e.domain_id e.outcome e.end_time
            e.response_time e.persistFails hid]
          exact h
        have h2 := ih _ did d h1
        rw [h2]
        have hres : resultsFor did (e :: evs) = resultsFor did evs := by
          simp [resultsFor, List.filter_cons, hid]
        rw [hres]

/-! ### Claim theorems -/

/-- C1: for every target, after any number of appends of CheckResults by
the checker, the check history has length at most 100, and the retained
entries are exactly the most recent 100 appended results in completion
order (oldest-first); appending N > 100 results leaves exactly the last
100 (the `min` clause forces length 100 then). -/
theorem C1_history_cap (reg : List MonitoredDomain) (evs : List CheckEvent)
    (did : Nat) (d : MonitoredDomain)
    (h : reg.find? (fun x => x.id == did) = some d)
    (hempty : d.check_history = []) :
    ∃ d', (runChecker reg evs).find? (fun x => x.id == did) = some d' ∧
      d'.check_history.length ≤ 100 ∧
      d'.check_history =
        (resultsFor did evs).drop ((resultsFor did evs).length - 100) ∧
      d'.check_history.length = min (resultsFor did evs).length 100 := by
  have hfind := runChecker_find evs reg did d h
  rw [hempty] at hfind
  have hfold := foldl_appendCheck (resultsFor did evs) [] (by simp)
  simp only [List.nil_append, List.length_nil, Nat.zero_add] at hfold
  refine ⟨_, hfind, ?_, ?_, ?_⟩
  · show (List.foldl appendCheck [] (resultsFor did evs)).length ≤ 100
    rw [hfold]
    simp only [List.length_drop]
    omega
  · exact hfold
  · show (List.foldl appendCheck [] (resultsFor did evs)).length = _
    rw [hfold]
    simp only [List.length_drop]
    omega

def c1w_domain : MonitoredDomain :=
  { id := 1, url := "https://example.com", interval_seconds := 60,
    check_history := [] }

def c1w_reg : List MonitoredDomain := [c1w_domain]

def c1w_evs : List CheckEvent :=
  List.replicate 101
    { domain_id := 1, outcome := ProbeOutcome.ok 200, end_time := 0,
      response_time := 42, persistFails := false }

/-- C1 witness: 101 successful checks against a single registered target
leave a history of exactly 100 entries. -/
theorem C1_history_cap_witness :
    ((runChecker c1w_reg c1w_evs).find? (fun x => x.id == 1)).map
        (fun d => d.check_history.length) = some 100 := by
  obtain ⟨d', hfind, hle, hdrop, hmin⟩ :=
    C1_history_cap c1w_reg c1w_evs 1 c1w_domain rfl rfl
  rw [hfind]
  have hlen : d'.check_history.length = 100 := by
    rw [hmin]
    rfl
  simp [hlen]

/-- C2: the checker classifies a probe response with a 2xx status as Up
and any other valid response as Down; a transport failure is classified
Error, with http code Timeout when the failure is a timeout and
NetworkError otherwise. -/
theorem C2_classification (code : Nat) (msg : String) (is_timeout : Bool)
    (ts : Int) (rt : Nat) :
    (buildCheckStatus (ProbeOutcome.ok code) ts rt).status =
      (if 200 ≤ code ∧ code ≤ 299 then DomainStatus.Up else DomainStatus.Down) ∧
    (buildCheckStatus (ProbeOutcome.err msg is_timeout) ts rt).status =
      DomainStatus.Error msg ∧
    (buildCheckStatus (ProbeOutcome.err msg true) ts rt).http_code =
      some HttpCode.Timeout ∧
    (buildCheckStatus (ProbeOutcome.err msg false) ts rt).http_code =
      some HttpCode.NetworkError := by
  refine ⟨?_, rfl, rfl, rfl⟩
  by_cases hc : 200 ≤ code ∧ code ≤ 299
  · simp [buildCheckStatus, isSuccess, hc]
  · simp [buildCheckStatus, isSuccess, hc]

def c3_target : MonitoredDomain :=
  { id := 7, url := "https://example.com", interval_seconds := 60,
    check_history := [] }

def c3_screen : DomainScreen :=
  { selected := some 0, history_selected := none, domains := [c3_target],
    mode := DomainScreenMode.DomainTable, db_file := [c3_target] }

/-- C3: issuing the delete command on the selected target does NOT remove
it from the shared in-memory registry — `delete_entry` removes the entry
only from a local clone, which is then persisted; the registry still
contains the domain afterwards while the saved file no longer does. -/
theorem C3_delete_leaves_registry :
    (DomainScreen.handle_key_event c3_screen (KeyCode.char 'd') 99 false).map
        (fun p => p.1.domains) = some [c3_target] ∧
    (DomainScreen.handle_key_event c3_screen (KeyCode.char 'd') 99 false).map
        (fun p => (p.1.domains.find? (fun d => d.id == 7)).isSome) =
      some true ∧
    (DomainScreen.handle_key_event c3_screen (KeyCode.char 'd') 99 false).map
        (fun p => p.1.db_file) = some [] := by
  decide

/-- C4: submitting the Add Target modal with a valid URL switches to the
target table and appends exactly one new MonitoredDomain (fresh id,
interval 60, empty history); an invalid URL keeps the modal, replaces its
title with the validation error, and changes nothing else. -/
theorem C4_add_submit (ds : List MonitoredDomain) (sel hsel : Option Nat)
    (file : List MonitoredDomain) (title : String) (ta : TextAreaModel)
    (fid : Nat) (pf : Bool) :
    DomainScreen.handle_key_event
        { selected := sel, history_selected := hsel, domains := ds,
          mode := DomainScreenMode.AddDomain { title := title, textarea := ta },
          db_file := file } KeyCode.enter fid pf =
      (if is_valid_url (ta.before ++ ta.after) then
        some ({ selected := sel, history_selected := hsel,
                domains := ds ++
                  [{ id := fid, url := (ta.before ++ ta.after).trim,
                     interval_seconds := 60, check_history := [] }],
                mode := DomainScreenMode.DomainTable,
                db_file :=
                  if pf then file
                  else ds ++
                    [{ id := fid, url := (ta.before ++ ta.after).trim,
                       interval_seconds := 60, check_history := [] }] }, true)
      else
        some ({ selected := sel, history_selected := hsel, domains := ds,
                mode := DomainScreenMode.AddDomain
                  { title := invalidUrlTitle, textarea := ta },
                db_file := file }, true)) ∧
    (DomainScreen.handle_key_event
        { selected := sel, history_selected := hsel, domains := ds,
          mode := DomainScreenMode.AddDomain { title := title, textarea := ta },
          db_file := file } KeyCode.enter fid pf).map
      (fun p => p.1.domains.length) =
      some (if is_valid_url (ta.before ++ ta.after) then ds.length + 1
            else ds.length) := by
  by_cases hv : is_valid_url (ta.before ++ ta.after) = true
  · constructor
    · simp [DomainScreen.handle_key_event, Popup.input_text, hv]
    · simp [DomainScreen.handle_key_event, Popup.input_text, hv]
  · have hv' : is_valid_url (ta.before ++ ta.after) = false :=
      Bool.eq_false_iff.mpr hv
    constructor
    · simp [DomainScreen.handle_key_event, Popup.input_text, hv']
    · simp [DomainScreen.handle_key_event, Popup.input_text, hv']

/-- C5: the URL validator accepts a candidate exactly when it parses as
an absolute URL with scheme http or https, a present host, and a host
ending in one of the fixed allow-listed TLD strings; the listed concrete
examples behave as claimed. -/
theorem C5_url_validation :
    (∀ s : String, is_valid_url s = true ↔
      ∃ u : Url, parseUrl s = some u ∧
        (u.scheme = "http" ∨ u.scheme = "https") ∧
        u.host.isSome = true ∧
        (∃ host, u.host = some host ∧
          valid_tlds.any (fun tld => strEndsWith host tld) = true)) ∧
    is_valid_url "http://example.com" = true ∧
    is_valid_url "https://example.org" = true ∧
    is_valid_url "ftp://example.com" = false ∧
    is_valid_url "http://256.256.256.256" = false ∧
    is_valid_url "" = false := by
  refine ⟨?_, by decide, by decide, by decide, by decide, by decide⟩
  intro s
  constructor
  · intro hv
    unfold is_valid_url at hv
    cases hp : parseUrl s with
    | none => rw [hp] at hv; simp at hv
    | some u =>
        rw [hp] at hv
        simp only [Bool.and_eq_true, Bool.or_eq_true, beq_iff_eq] at hv
        obtain ⟨⟨hscheme, hhost⟩, htld⟩ := hv
        cases hh : u.host with
        | none => rw [hh] at hhost; simp at hhost
        | some host =>
            rw [hh] at htld
            exact ⟨u, rfl, hscheme, by rw [hh]; rfl, host, hh, htld⟩
  · rintro ⟨u, hp, hscheme, hhost, host, hh, htld⟩
    unfold is_valid_url
    rw [hp]
    simp only [Bool.and_eq_true, Bool.or_eq_true, beq_iff_eq]
    refine ⟨⟨hscheme, by rw [hh]; rfl⟩, ?_⟩
    rw [hh]
    exact htld

def c6_empty_screen : DomainScreen :=
  { selected := none, history_selected := none, domains := [],
    mode := DomainScreenMode.DomainTable, db_file := [] }

/-- C6 counterexample: on an empty table with no current selection both
navigation commands select row 0 — they are not no-ops and do not leave
the selection empty, refuting the claim at this concrete input. -/
theorem C6_empty_table_counterexample :
    (DomainScreen.next_row c6_empty_screen).map DomainScreen.selected =
      some (some 0) ∧
    (DomainScreen.previous_row c6_empty_screen).map DomainScreen.selected =
      some (some 0) ∧
    ¬ ((DomainScreen.next_row c6_empty_screen).map DomainScreen.selected =
        some none) := by
  decide

/-- C6 (amended): selecting "next" from the last row wraps to row 0 and
selecting "previous" from row 0 wraps to the last row; on an empty table
with no current selection, both operations select row 0 instead of being
no-ops. -/
theorem C6_wraparound (d : MonitoredDomain) (ds : List MonitoredDomain)
    (hsel : Option Nat) (mode : DomainScreenMode)
    (file : List MonitoredDomain) :
    DomainScreen.next_row
        { selected := some ds.length, history_selected := hsel,
          domains := d :: ds, mode := mode, db_file := file } =
      some { selected := some 0, history_selected := hsel,
             domains := d :: ds, mode := mode, db_file := file } ∧
    DomainScreen.previous_row
        { selected := some 0, history_selected := hsel,
          domains := d :: ds, mode := mode, db_file := file } =
      some { selected := some ds.length, history_selected := hsel,
             domains := d :: ds, mode := mode, db_file := file } ∧
    DomainScreen.next_row
        { selected := none, history_selected := hsel, domains := [],
          mode := mode, db_file := file } =
      some { selected := some 0, history_selected := hsel, domains := [],
             mode := mode, db_file := file } ∧
    DomainScreen.previous_row
        { selected := none, history_selected := hsel, domains := [],
          mode := mode, db_file := file } =
      some { selected := some 0, history_selected := hsel, domains := [],
             mode := mode, db_file := file } := by
  refine ⟨?_, ?_, rfl, rfl⟩
  · simp [DomainScreen.next_row]
  · simp [DomainScreen.previous_row]

/-- The open modal of the session, when there is one. -/
def modalPopup (app : App) : Option Popup :=
  match app.current_screen with
  | Menu.Domains s =>
      match s.mode with
      | DomainScreenMode.AddDomain p => some p
      | _ => none
  | Menu.Main => none

/-- The shared registry as visible from the session ([] on the main
menu, which holds no registry). -/
def registryOf (app : App) : List MonitoredDomain :=
  match app.current_screen with
  | Menu.Domains s => s.domains
  | Menu.Main => []

/-- States in which the key handler cannot abort: in history mode a
current selection must index into the registry (the source indexes
`domains_guard[selected_domain]` unconditionally there). -/
def appSafe (app : App) : Bool :=
  match app.current_screen with
  | Menu.Main => true
  | Menu.Domains s =>
      match s.mode with
      | DomainScreenMode.HistoryTable =>
          match s.selected with
          | some i => decide (i < s.domains.length)
          | none => true
      | _ => true

/-- C7: pressing 'q' or 'Q' terminates the session from any non-aborting
state — except while the Add Target modal is open, where the key is
consumed as literal text (inserted at the cursor of the URL being
edited), the registry is untouched and the session does not exit. -/
theorem C7_quit_key (app : App) (c : Char) (fid : Nat) (pf : Bool)
    (hc : c = 'q' ∨ c = 'Q') (hsafe : appSafe app = true) :
    ∃ app', App.handle_input_events app (KeyCode.char c) fid pf = some app' ∧
      (∀ p, modalPopup app = some p →
        app'.exit = app.exit ∧
        modalPopup app' = some { p with textarea := p.textarea.insertChar c } ∧
        registryOf app' = registryOf app) ∧
      (modalPopup app = none → app'.exit = true) := by
  obtain ⟨scr, ex, sw⟩ := app
  cases scr with
  | Main =>
      rcases hc with rfl | rfl
      · exact ⟨_, rfl, fun p hp => by simp [modalPopup] at hp,
          fun _ => rfl⟩
      · exact ⟨_, rfl, fun p hp => by simp [modalPopup] at hp,
          fun _ => rfl⟩
  | Domains s =>
      obtain ⟨sel, hsel, doms, mode, file⟩ := s
      cases mode with
      | AddDomain popup =>
          refine ⟨_, rfl, ?_, ?_⟩
          · intro p hp
            have hp' : popup = p := by
              simpa [modalPopup] using hp
            subst hp'
            exact ⟨rfl, rfl, rfl⟩
          · intro hnone
            simp [modalPopup] at hnone
      | DomainTable =>
          rcases hc with rfl | rfl
          · exact ⟨_, rfl, fun p hp => by simp [modalPopup] at hp,
              fun _ => rfl⟩
          · exact ⟨_, rfl, fun p hp => by simp [modalPopup] at hp,
              fun _ => rfl⟩
      | HistoryTable =>
          cases sel with
          | none =>
              rcases hc with rfl | rfl
              · exact ⟨_, rfl, fun p hp => by simp [modalPopup] at hp,
                  fun _ => rfl⟩
              · exact ⟨_, rfl, fun p hp => by simp [modalPopup] at hp,
                  fun _ => rfl⟩
          | some i =>
              have hlt : i < doms.length := by
                simpa [appSafe] using hsafe
              cases hg : doms.get? i with
              | none =>
                  exfalso
                  have := List.get?_eq_none.mp hg
                  omega
              | some d =>
                  have hg2 : doms[i]? = some d := by
                    rw [← List.get?_eq_getElem?]
                    exact hg
                  rcases hc with rfl | rfl
                  · exact ⟨_, by
                      simp [App.handle_input_events,
                        DomainScreen.handle_key_event, hg2,
                        App.handle_global_key_event]
                      rfl,
                      fun p hp => by simp [modalPopup] at hp, fun _ => rfl⟩
                  · exact ⟨_, by
                      simp [App.handle_input_events,
                        DomainScreen.handle_key_event, hg2,
                        App.handle_global_key_event]
                      rfl,
                      fun p hp => by simp [modalPopup] at hp, fun _ => rfl⟩

def c7_app : App :=
  { current_screen := Menu.Domains
      { selected := none, history_selected := none, domains := [],
        mode := DomainScreenMode.AddDomain
          (Popup.new "Add New Domain" (some "https://")),
        db_file := [] }
    exit := false
    switchRequested := false }

/-- C7 witness: with the Add Target modal open, pressing 'q' leaves the
session running (`exit` stays false) and appends the character to the
edited URL. -/
theorem C7_quit_key_witness :
    (App.handle_input_events c7_app (KeyCode.char 'q') 0 false).map App.exit =
      some false ∧
    (App.handle_input_events c7_app (KeyCode.char 'q') 0 false).map
        (fun a => (modalPopup a).map (fun p => p.textarea.before)) =
      some (some "https://q") := by
  obtain ⟨app', h1, h2, h3⟩ :=
    C7_quit_key c7_app 'q' 0 false (Or.inl rfl) (by decide)
  obtain ⟨hexit, hmodal, hreg⟩ := h2 (Popup.new "Add New Domain" (some "https://")) rfl
  rw [h1]
  constructor
  · rw [Option.map_some', hexit]
    rfl
  · rw [Option.map_some', hmodal]
    rfl

def c8_domain : MonitoredDomain :=
  { id := 3, url := "https://example.com", interval_seconds := 60,
    check_history := [] }

def c8_reg : List MonitoredDomain := [c8_domain]

/-- C8: every probe outcome — including a transport failure — is turned
into a CheckResult that is recorded for the target, the iteration is a
total function (the loop is never aborted), a persistence failure changes
nothing about the resulting registry (no rollback), and the callback
reports the failure only after the registry already holds the update. -/
theorem C8_probe_failure_resilience (reg : List MonitoredDomain) (did : Nat)
    (outcome : ProbeOutcome) (ts : Int) (rt : Nat) (d : MonitoredDomain)
    (h : reg.find? (fun x => x.id == did) = some d) :
    (∀ pf : Bool,
      (checkerIteration reg did outcome ts rt pf).find?
          (fun x => x.id == did) =
        some { d with
                check_history :=
                  appendCheck d.check_history
                    (buildCheckStatus outcome ts rt) }) ∧
    checkerIteration reg did outcome ts rt true =
      checkerIteration reg did outcome ts rt false ∧
    (update_domains_callback reg did
        (appendCheck d.check_history (buildCheckStatus outcome ts rt))
        true).2 = Except.error () ∧
    (update_domains_callback reg did
        (appendCheck d.check_history (buildCheckStatus outcome ts rt))
        true).1 =
      setHistoryFirst reg did
        (appendCheck d.check_history (buildCheckStatus outcome ts rt)) := by
  refine ⟨fun pf => checkerIteration_find reg did outcome ts rt pf d h,
    ?_, ?_, ?_⟩
  · rw [checkerIteration_eq, checkerIteration_eq]
  · unfold update_domains_callback
    rw [h]
    rfl
  · unfold update_domains_callback
    rw [h]
    rfl

/-- C8 witness: a network failure against the single registered target is
recorded in its history even when the subsequent save fails. -/
theorem C8_probe_failure_resilience_witness :
    ((checkerIteration c8_reg 3 (ProbeOutcome.err "connection refused" false)
        0 5 true).find? (fun x => x.id == 3)).map
      MonitoredDomain.check_history =
      some [buildCheckStatus (ProbeOutcome.err "connection refused" false)
        0 5] := by
  obtain ⟨hrec, hnoroll, herr, hupd⟩ :=
    C8_probe_failure_resilience c8_reg 3
      (ProbeOutcome.err "connection refused" false) 0 5 c8_domain rfl
  rw [hrec true]
  rfl

/-- C9 counterexample: 204 is a success status code, yet
`from_status_code` records it as `Other 204`, not as the "200" bucket —
refuting the claim that every success code lands in the 200 bucket. -/
theorem C9_success_bucket_counterexample :
    isSuccess 204 = true ∧
    HttpCode.from_status_code 204 = HttpCode.Other 204 ∧
    HttpCode.from_status_code 204 ≠ HttpCode.Ok := by
  decide

/-- C9 (amended): only the exact status code 200 is recorded as the "200"
bucket; a server-error code (500–599) is recorded as the "500" bucket;
every other code — including the remaining 2xx success codes — is
recorded as Other(code), carrying the numeric code. -/
theorem C9_status_code_buckets (code : Nat) :
    HttpCode.from_status_code code =
      (if code = 200 then HttpCode.Ok
       else if 500 ≤ code ∧ code ≤ 599 then HttpCode.Err
       else HttpCode.Other code) ∧
    (HttpCode.from_status_code code = HttpCode.Ok ↔ code = 200) := by
  have heq : HttpCode.from_status_code code =
      (if code = 200 then HttpCode.Ok
       else if 500 ≤ code ∧ code ≤ 599 then HttpCode.Err
       else HttpCode.Other code) := by
    unfold HttpCode.from_status_code
    by_cases h1 : code = 200
    · simp [h1]
    · rw [if_neg h1, if_neg h1]
      by_cases h2 : 500 ≤ code ∧ code ≤ 599
      · simp [isServerError, h2]
      · simp [isServerError, h2]
  refine ⟨heq, ?_⟩
  rw [heq]
  by_cases h1 : code = 200
  · simp [h1]
  · rw [if_neg h1]
    by_cases h2 : 500 ≤ code ∧ code ≤ 599
    · rw [if_pos h2]
      simp [h1]
    · rw [if_neg h2]
      simp [h1]

/-- C10: every CheckResult the checker builds is well-formed: the status
is Up, Down or Error (never Unknown); a response carries the elapsed
time, an http code and no error message; a failure carries the error
message, a Timeout/NetworkError code and no response time. -/
theorem C10_checkresult_wellformed (code : Nat) (msg : String)
    (is_timeout : Bool) (ts : Int) (rt : Nat) :
    (∀ outcome : ProbeOutcome,
      (buildCheckStatus outcome ts rt).status ≠ DomainStatus.Unknown) ∧
    ((buildCheckStatus (ProbeOutcome.ok code) ts rt).status = DomainStatus.Up ∨
      (buildCheckStatus (ProbeOutcome.ok code) ts rt).status =
        DomainStatus.Down) ∧
    (buildCheckStatus (ProbeOutcome.ok code) ts rt).response_time_ms =
      some rt ∧
    (buildCheckStatus (ProbeOutcome.ok code) ts rt).http_code =
      some (HttpCode.from_status_code code) ∧
    (buildCheckStatus (ProbeOutcome.ok code) ts rt).error_message = none ∧
    (buildCheckStatus (ProbeOutcome.err msg is_timeout) ts rt).error_message =
      some msg ∧
    ((buildCheckStatus (ProbeOutcome.err msg is_timeout) ts rt).http_code =
        some HttpCode.Timeout ∨
      (buildCheckStatus (ProbeOutcome.err msg is_timeout) ts rt).http_code =
        some HttpCode.NetworkError) ∧
    (buildCheckStatus (ProbeOutcome.err msg is_timeout) ts rt).response_time_ms =
      none ∧
    (buildCheckStatus (ProbeOutcome.err msg is_timeout) ts rt).status =
      DomainStatus.Error msg := by
  refine ⟨?_, ?_, rfl, rfl, rfl, rfl, ?_, rfl, rfl⟩
  · intro o
    cases o with
    | ok c2 =>
        by_cases hs : isSuccess c2 = true
        · simp [buildCheckStatus, hs]
        · simp [buildCheckStatus, hs]
    | err m t => simp [buildCheckStatus]
  · by_cases hs : isSuccess code = true
    · left
      simp [buildCheckStatus, hs]
    · right
      simp [buildCheckStatus, hs]
  · cases is_timeout
    · right
      rfl
    · left
      rfl

end Upquack
